import Mathlib

/-!
Shallow embedding of the `media_tag` association store and query engine.

Sources embedded:
- `media_tag_lib/src/lib.rs`: the `MediaTag` store (`create_tag`,
  `get_medium_id_or_insert`, `add_tag`, `remove_tag`, `load_media_tag`,
  `resolve_path_to_db_string`).
- `media_tag_cli/src/main.rs`: the `Search` filter closure (`has_tag`,
  positive/negative matching).

Modelling choices:
- SQLite tables become lists of rows; each SQL statement becomes the
  corresponding pure list operation; all statements execute immediately
  (autocommit, as in the source, which opens no explicit transaction).
- Row ids are `Int` (Rust `i64`); SQLite assigns a fresh rowid as
  max-existing + 1 for these non-AUTOINCREMENT tables.
- Filesystem paths: an absolute canonical path is a list of components,
  each component a list of characters; `Path::canonicalize` is an
  abstract partial function `fs` from the input string to such a path.
  Rust `Path`/`PathBuf` component normalisation (skipping empty and `.`
  components when parsing a string) is modelled in `parseRelString`.
- Strings stored in the database keep enough structure as `List Char`
  to state the encode/parse round trip exactly.
-/

deriving instance DecidableEq for Except

namespace MediaTag

/-- One path component of a canonical path (`std::path` normal component). -/
abbrev Component := List Char

/-- A canonical absolute path, as its list of normal components. -/
abbrev AbsPath := List Component

/-- An abstract filesystem: `Path::canonicalize` as a partial function from
the textual input path to its canonical absolute form (`none` = io error,
e.g. the path does not exist). -/
abbrev Fs := String → Option AbsPath

/-- The error enum of `media_tag_lib::Error` (the variants reachable in the
model; `SqliteError`/`CouldNotDetermineMediaTagPath` concern the backing
store connection and store discovery, outside the embedded operations). -/
inductive MError where
  | TagAlreadyExists (name : String)
  | TagDoesNotExist (name : String)
  | FileDoesNotExist (pathStr : List Char)
  | IoError
  | StripPrefixError
  | InvalidPathEncoding
deriving DecidableEq

/-- Modelled from the spec: the schema script `db.sqlite` (pulled in with
`include_str!` in lib.rs) is not part of the sources; per the spec's schema
section it declares `tags(id PK, name UNIQUE)`, `media(id PK, path UNIQUE)`
and `media_tags(media_id, tag_id)` with foreign keys and a uniqueness
constraint on the pair. The store state is those three relations; the
uniqueness constraints surface as the conflict branches of the operations
below. -/
structure Store where
  tags : List (Int × String)
  media : List (Int × List Char)
  mediaTags : List (Int × Int)
deriving DecidableEq

/-- SQLite rowid assignment for an insert without an explicit id:
one more than the largest id in the table. -/
def freshId (rows : List (Int × α)) : Int :=
  (rows.map (·.1)).foldr max 0 + 1

/-- Model of `Path::strip_prefix`: remove `root` from the front of the component
list of `abs`, failing when `root` is not a prefix. -/
def relativeTo : AbsPath → AbsPath → Option AbsPath
  | [], ys => some ys
  | _ :: _, [] => none
  | x :: xs, y :: ys => if x = y then relativeTo xs ys else none

/-- Model of `rel_path.to_str()`: the textual form of a relative path, components
joined by `/` (characters; `String` holds only valid Unicode, so the
`InvalidPathEncoding` branch of the source is unreachable in the model). -/
def encodeComponents : List Component → List Char
  | [] => []
  | [c] => c
  | c :: c2 :: cs => c ++ '/' :: encodeComponents (c2 :: cs)

/-- Split a character list at every `/` (the separator-level parse that
`Path::components` starts from). -/
def splitSlashes : List Char → List Component
  | [] => [[]]
  | c :: rest =>
    if c = '/' then [] :: splitSlashes rest
    else
      match splitSlashes rest with
      | [] => [[c]]
      | r :: rs => (c :: r) :: rs

/-- A component of a canonical path: nonempty, free of the separator, and
not the `.` component (`canonicalize` never emits these). -/
def validComponent (c : Component) : Prop :=
  c ≠ [] ∧ '/' ∉ c ∧ c ≠ ['.']

instance (c : Component) : Decidable (validComponent c) := by
  unfold validComponent
  infer_instance

/-- Model of `PathBuf::push` with a relative string: parse it into normal
components (`Path::components` skips empty and `.` segments). -/
def parseRelString (s : List Char) : List Component :=
  (splitSlashes s).filter (fun c => decide (c ≠ [] ∧ c ≠ ['.']))

/-- Model of `self.root.join(path_string)` from `load_media_tag`. -/
def joinRoot (root : AbsPath) (s : List Char) : AbsPath :=
  root ++ parseRelString s

/-- Model of `MediaTag::resolve_path_to_db_string`: canonicalize the input, strip
the root prefix, render the relative remainder as text. -/
def resolve_path_to_db_string (fs : Fs) (root : AbsPath) (p : String) :
    Except MError (List Char) :=
  match fs p with
  | none => .error .IoError
  | some absPath =>
    match relativeTo root absPath with
    | none => .error .StripPrefixError
    | some rel => .ok (encodeComponents rel)

/-- Model of `MediaTag::create_tag`: `INSERT OR IGNORE INTO tags (name)`; zero
affected rows (the `UNIQUE(name)` conflict was ignored) is reported as
`TagAlreadyExists`. -/
def create_tag (s : Store) (name : String) : Except MError Unit × Store :=
  if s.tags.any (fun r => r.2 = name) then
    (.error (.TagAlreadyExists name), s)
  else
    (.ok (), { s with tags := s.tags ++ [(freshId s.tags, name)] })

/-- Model of `MediaTag::get_medium_id_or_insert`: upsert on `media(path)` —
`INSERT ... ON CONFLICT(path) DO UPDATE SET path=excluded.path RETURNING id`.
On conflict the row keeps its id and its path is overwritten with the same
value, so the table is unchanged. -/
def get_medium_id_or_insert (s : Store) (pathStr : List Char) : Int × Store :=
  match s.media.find? (fun r => r.2 = pathStr) with
  | some r => (r.1, s)
  | none =>
    let id := freshId s.media
    (id, { s with media := s.media ++ [(id, pathStr)] })

/-- Model of `SELECT id FROM tags WHERE name = ?1` with `.optional()`. -/
def findTagId (s : Store) (tagName : String) : Option Int :=
  (s.tags.find? (fun r => r.2 = tagName)).map (·.1)

/-- Model of `MediaTag::add_tag`: resolve the path, upsert the medium row, look the
tag up by name (failing `TagDoesNotExist` — note the medium upsert has
already run), then `INSERT OR IGNORE` the association pair. -/
def add_tag (fs : Fs) (root : AbsPath) (s : Store) (p : String)
    (tagName : String) : Except MError Unit × Store :=
  match resolve_path_to_db_string fs root p with
  | .error e => (.error e, s)
  | .ok pathStr =>
    let res := get_medium_id_or_insert s pathStr
    let mediumId := res.1
    let s1 := res.2
    match findTagId s1 tagName with
    | none => (.error (.TagDoesNotExist tagName), s1)
    | some tagId =>
      if (mediumId, tagId) ∈ s1.mediaTags then
        (.ok (), s1)
      else
        (.ok (), { s1 with mediaTags := s1.mediaTags ++ [(mediumId, tagId)] })

/-- Model of `MediaTag::remove_tag`: resolve the path, look the medium up (failing
`FileDoesNotExist` — no implicit creation), look the tag up (failing
`TagDoesNotExist`), then `DELETE` the association pair. -/
def remove_tag (fs : Fs) (root : AbsPath) (s : Store) (p : String)
    (tagName : String) : Except MError Unit × Store :=
  match resolve_path_to_db_string fs root p with
  | .error e => (.error e, s)
  | .ok pathStr =>
    match (s.media.find? (fun r => r.2 = pathStr)).map (·.1) with
    | none => (.error (.FileDoesNotExist pathStr), s)
    | some mediumId =>
      match findTagId s tagName with
      | none => (.error (.TagDoesNotExist tagName), s)
      | some tagId =>
        (.ok (),
         { s with mediaTags := s.mediaTags.filter (fun mt => mt ≠ (mediumId, tagId)) })

/-- One row of the materialized snapshot (`media_tag_lib::Medium`): id, the
stored relative path joined back onto root, and the attached tag ids. -/
structure Medium where
  id : Int
  path : AbsPath
  tags : List Int
deriving DecidableEq

/-- The materialized snapshot (`media_tag_lib::MediaTags`). -/
structure MediaTags where
  tags : List (Int × String)
  media : List Medium
deriving DecidableEq

/-- Model of `MediaTag::load_media_tag`: every media row, `LEFT JOIN media_tags`
`LEFT JOIN tags` grouped by medium — each medium carries the tag ids of its
association rows whose tag id exists in `tags` (the `t.id` column of the
join; a missing tag would join as NULL and be dropped by `GROUP_CONCAT`). -/
def load_media_tag (root : AbsPath) (s : Store) : MediaTags :=
  { tags := s.tags,
    media := s.media.map (fun r =>
      { id := r.1,
        path := joinRoot root r.2,
        tags := (s.mediaTags.filter (fun mt => mt.1 = r.1)).filterMap
          (fun mt => if s.tags.any (fun t => t.1 = mt.2) then some mt.2 else none) }) }

/-- The `has_tag` closure of the CLI `Search` arm: does any attached tag id
resolve (through the snapshot's tag map) to a name equal to the query? -/
def has_tag (tagMap : List (Int × String)) (mediumTags : List Int)
    (queryTag : String) : Bool :=
  mediumTags.any (fun tagId =>
    match tagMap.find? (fun t => t.1 = tagId) with
    | some t => t.2 = queryTag
    | none => false)

/-- The `Search` filter closure of the CLI: positive condition (`all` of
`queries`, or `any` with the explicit empty-list-is-true case when `--any`
is set) and negative condition (`any` of `exclude`). -/
def searchFilter (tagMap : List (Int × String)) (anyMode : Bool)
    (queries exclude : List String) (m : Medium) : Bool :=
  let matchesPositive :=
    if anyMode then
      if queries.isEmpty then true else queries.any (has_tag tagMap m.tags)
    else
      queries.all (has_tag tagMap m.tags)
  let matchesNegative := exclude.any (has_tag tagMap m.tags)
  matchesPositive && !matchesNegative

/-- The `Search` arm end to end over a snapshot: filter the snapshot's media
by the closure (output order is the snapshot's order). -/
def search (snapshot : MediaTags) (anyMode : Bool)
    (queries exclude : List String) : List Medium :=
  snapshot.media.filter (searchFilter snapshot.tags anyMode queries exclude)

/-- The tag names a medium's attached ids resolve to through the snapshot's
tag map (ids with no entry resolve to nothing). -/
def mediumTagNames (tagMap : List (Int × String)) (m : Medium) : List String :=
  m.tags.filterMap (fun tagId => (tagMap.find? (fun t => t.1 = tagId)).map (·.2))

/-- One store call, for stating invariants over call sequences. -/
inductive Op where
  | create (name : String)
  | attach (p : String) (tagName : String)
  | detach (p : String) (tagName : String)

/-- The store state a call leaves behind. -/
def applyOp (fs : Fs) (root : AbsPath) (s : Store) : Op → Store
  | .create n => (create_tag s n).2
  | .attach p t => (add_tag fs root s p t).2
  | .detach p t => (remove_tag fs root s p t).2

/-- Run a sequence of store calls from a state. -/
def runOps (fs : Fs) (root : AbsPath) : List Op → Store → Store
  | [], s => s
  | op :: ops, s => runOps fs root ops (applyOp fs root s op)

/-- The `media(path UNIQUE)` invariant: no two media rows share a path. -/
def mediaPathsUnique (s : Store) : Prop :=
  s.media.Pairwise (fun a b => a.2 ≠ b.2)

/- Concrete fixtures used to instantiate the theorems: a one-file filesystem
whose file `"p"` canonicalizes to `/r/a` under root `/r`, one whose file
`"q"` canonicalizes outside that root, and small store states. -/

def exFs : Fs := fun p => if p = "p" then some [['r'], ['a']] else none

def exFsOut : Fs := fun p => if p = "q" then some [['z'], ['a']] else none

def exRoot : AbsPath := [['r']]

def emptyStore : Store := ⟨[], [], []⟩

def exStoreTag : Store := ⟨[(1, "t")], [], []⟩

def exStoreMT : Store := ⟨[(1, "t")], [(1, ['a'])], []⟩

/-! ## Helper lemmas -/

theorem has_tag_iff_exists (tagMap : List (Int × String)) (mtags : List Int)
    (q : String) :
    has_tag tagMap mtags q = true ↔
      ∃ tagId ∈ mtags, ∃ t, tagMap.find? (fun r => r.1 = tagId) = some t ∧ t.2 = q := by
  unfold has_tag
  rw [List.any_eq_true]
  constructor
  · rintro ⟨tagId, hmem, hpred⟩
    refine ⟨tagId, hmem, ?_⟩
    cases h : tagMap.find? (fun r => r.1 = tagId) with
    | none => rw [h] at hpred; simp at hpred
    | some t =>
      rw [h] at hpred
      exact ⟨t, rfl, by simpa using hpred⟩
  · rintro ⟨tagId, hmem, t, hfind, hq⟩
    refine ⟨tagId, hmem, ?_⟩
    rw [hfind]
    simpa using hq

theorem mem_mediumTagNames_iff (tagMap : List (Int × String)) (m : Medium)
    (q : String) :
    q ∈ mediumTagNames tagMap m ↔
      ∃ tagId ∈ m.tags, ∃ t, tagMap.find? (fun r => r.1 = tagId) = some t ∧ t.2 = q := by
  unfold mediumTagNames
  rw [List.mem_filterMap]
  constructor
  · rintro ⟨tagId, hmem, hmap⟩
    obtain ⟨t, hfind, ht⟩ := Option.map_eq_some'.mp hmap
    exact ⟨tagId, hmem, t, hfind, ht⟩
  · rintro ⟨tagId, hmem, t, hfind, hq⟩
    exact ⟨tagId, hmem, by rw [hfind]; simpa using hq⟩

theorem has_tag_iff_mem_names (tagMap : List (Int × String)) (m : Medium)
    (q : String) :
    has_tag tagMap m.tags q = true ↔ q ∈ mediumTagNames tagMap m := by
  rw [has_tag_iff_exists, mem_mediumTagNames_iff]

theorem has_tag_eq_false_iff (tagMap : List (Int × String)) (m : Medium)
    (q : String) :
    has_tag tagMap m.tags q = false ↔ q ∉ mediumTagNames tagMap m := by
  rw [← Bool.not_eq_true, not_iff_not]
  exact has_tag_iff_mem_names tagMap m q

theorem gmi_tags (s : Store) (ps : List Char) :
    (get_medium_id_or_insert s ps).2.tags = s.tags := by
  cases h : s.media.find? (fun r => r.2 = ps) <;>
    simp [get_medium_id_or_insert, h]

theorem gmi_mediaTags (s : Store) (ps : List Char) :
    (get_medium_id_or_insert s ps).2.mediaTags = s.mediaTags := by
  cases h : s.media.find? (fun r => r.2 = ps) <;>
    simp [get_medium_id_or_insert, h]

theorem gmi_of_find (s : Store) (ps : List Char) (r : Int × List Char)
    (h : s.media.find? (fun x => x.2 = ps) = some r) :
    get_medium_id_or_insert s ps = (r.1, s) := by
  simp [get_medium_id_or_insert, h]

theorem findTagId_tags_eq {s1 s2 : Store} (h : s1.tags = s2.tags) (n : String) :
    findTagId s1 n = findTagId s2 n := by
  unfold findTagId
  rw [h]

theorem gmi_find (s : Store) (ps : List Char) :
    (get_medium_id_or_insert s ps).2.media.find? (fun r => r.2 = ps) =
      some ((get_medium_id_or_insert s ps).1, ps) := by
  cases h : s.media.find? (fun r => r.2 = ps) with
  | some r =>
    have hr2 : r.2 = ps := by simpa using List.find?_some h
    simp only [get_medium_id_or_insert, h]
    exact congrArg some (Prod.ext rfl hr2)
  | none =>
    simp only [get_medium_id_or_insert, h]
    rw [List.find?_append, h]
    simp

theorem gmi_unique (s : Store) (ps : List Char) (h : mediaPathsUnique s) :
    mediaPathsUnique (get_medium_id_or_insert s ps).2 := by
  cases hf : s.media.find? (fun r => r.2 = ps) with
  | some r => simpa [get_medium_id_or_insert, hf, mediaPathsUnique] using h
  | none =>
    have hnone : ∀ r ∈ s.media, r.2 ≠ ps := by
      intro r hr
      simpa using List.find?_eq_none.mp hf r hr
    unfold mediaPathsUnique at h ⊢
    simp only [get_medium_id_or_insert, hf]
    rw [List.pairwise_append]
    refine ⟨h, List.pairwise_singleton _ _, ?_⟩
    intro a ha b hb
    rw [List.mem_singleton] at hb
    subst hb
    exact hnone a ha

theorem create_tag_media (s : Store) (n : String) :
    (create_tag s n).2.media = s.media := by
  unfold create_tag
  split <;> rfl

theorem remove_tag_media (fs : Fs) (root : AbsPath) (s : Store) (p t : String) :
    (remove_tag fs root s p t).2.media = s.media := by
  cases h1 : resolve_path_to_db_string fs root p with
  | error e => simp [remove_tag, h1]
  | ok ps =>
    cases h2 : (s.media.find? (fun r => r.2 = ps)).map (·.1) with
    | none => simp [remove_tag, h1, h2]
    | some mid =>
      cases h3 : findTagId s t with
      | none => simp [remove_tag, h1, h2, h3]
      | some tid => simp [remove_tag, h1, h2, h3]

theorem add_tag_unique (fs : Fs) (root : AbsPath) (s : Store) (p t : String)
    (h : mediaPathsUnique s) : mediaPathsUnique (add_tag fs root s p t).2 := by
  cases h1 : resolve_path_to_db_string fs root p with
  | error e =>
    have : (add_tag fs root s p t).2 = s := by
      unfold add_tag
      rw [h1]
    rw [this]
    exact h
  | ok ps =>
    have hg := gmi_unique s ps h
    have hmedia : (add_tag fs root s p t).2.media =
        (get_medium_id_or_insert s ps).2.media := by
      cases h2 : findTagId (get_medium_id_or_insert s ps).2 t with
      | none => simp [add_tag, h1, h2]
      | some tid =>
        by_cases h3 :
            ((get_medium_id_or_insert s ps).1, tid) ∈
              (get_medium_id_or_insert s ps).2.mediaTags
        · simp [add_tag, h1, h2, h3]
        · simp [add_tag, h1, h2, h3]
    unfold mediaPathsUnique at hg ⊢
    rw [hmedia]
    exact hg

theorem applyOp_unique (fs : Fs) (root : AbsPath) (s : Store) (op : Op)
    (h : mediaPathsUnique s) : mediaPathsUnique (applyOp fs root s op) := by
  cases op with
  | create n =>
    show (create_tag s n).2.media.Pairwise _
    rw [create_tag_media]
    exact h
  | attach p t => exact add_tag_unique fs root s p t h
  | detach p t =>
    show (remove_tag fs root s p t).2.media.Pairwise _
    rw [remove_tag_media]
    exact h

theorem runOps_unique (fs : Fs) (root : AbsPath) (ops : List Op) (s : Store)
    (h : mediaPathsUnique s) : mediaPathsUnique (runOps fs root ops s) := by
  induction ops generalizing s with
  | nil => exact h
  | cons op ops ih => exact ih _ (applyOp_unique fs root s op h)

theorem splitSlashes_ne_nil (s : List Char) : splitSlashes s ≠ [] := by
  induction s with
  | nil => simp [splitSlashes]
  | cons c rest ih =>
    simp only [splitSlashes]
    split
    · simp
    · cases h : splitSlashes rest with
      | nil => exact absurd h ih
      | cons r rs => simp [h]

theorem splitSlashes_no_slash (c : List Char) (h : '/' ∉ c) :
    splitSlashes c = [c] := by
  induction c with
  | nil => rfl
  | cons x xs ih =>
    have hx : x ≠ '/' := fun he => h (he ▸ List.mem_cons_self x xs)
    have hxs : '/' ∉ xs := fun hm => h (List.mem_cons_of_mem x hm)
    simp only [splitSlashes, if_neg hx]
    rw [ih hxs]

theorem splitSlashes_append (c t : List Char) (h : '/' ∉ c) :
    splitSlashes (c ++ '/' :: t) = c :: splitSlashes t := by
  induction c with
  | nil => simp [splitSlashes]
  | cons x xs ih =>
    have hx : x ≠ '/' := fun he => h (he ▸ List.mem_cons_self x xs)
    have hxs : '/' ∉ xs := fun hm => h (List.mem_cons_of_mem x hm)
    simp only [List.cons_append, splitSlashes, if_neg hx]
    simp only [List.append_eq]
    rw [ih hxs]

theorem parseRelString_encode : ∀ cs : List Component,
    (∀ c ∈ cs, validComponent c) → parseRelString (encodeComponents cs) = cs
  | [], _ => by simp [encodeComponents, parseRelString, splitSlashes]
  | [c], h => by
    obtain ⟨hne, hns, hnd⟩ := h c (List.mem_singleton_self c)
    simp [encodeComponents, parseRelString, splitSlashes_no_slash c hns, hne, hnd]
  | c :: c2 :: cs, h => by
    obtain ⟨hne, hns, hnd⟩ := h c (List.mem_cons_self c _)
    have hrest : ∀ x ∈ c2 :: cs, validComponent x := fun x hx =>
      h x (List.mem_cons_of_mem c hx)
    have ih := parseRelString_encode (c2 :: cs) hrest
    show parseRelString (c ++ '/' :: encodeComponents (c2 :: cs)) = c :: c2 :: cs
    unfold parseRelString
    rw [splitSlashes_append _ _ hns]
    have hp : decide (c ≠ [] ∧ c ≠ ['.']) = true := by simp [hne, hnd]
    rw [List.filter_cons, hp]
    simp only [if_true]
    exact congrArg (c :: ·) ih

theorem relativeTo_some (root absPath rel : AbsPath)
    (h : relativeTo root absPath = some rel) : absPath = root ++ rel := by
  induction root generalizing absPath with
  | nil =>
    simp only [relativeTo, Option.some.injEq] at h
    simpa using h
  | cons x xs ih =>
    cases absPath with
    | nil => simp [relativeTo] at h
    | cons y ys =>
      by_cases hxy : x = y
      · rw [relativeTo, if_pos hxy] at h
        have := ih ys h
        subst hxy
        simp [this]
      · rw [relativeTo, if_neg hxy] at h
        exact absurd h (by simp)

/-! ## Claim theorems -/

/-- C4: for every store state and every name for which a tag already exists,
`create_tag` fails with `TagAlreadyExists(name)` and the whole store — in
particular the tag table — is returned exactly as it was. -/
theorem create_tag_duplicate_fails (s : Store) (name : String) (id : Int)
    (h : (id, name) ∈ s.tags) :
    create_tag s name = (.error (.TagAlreadyExists name), s) := by
  have hany : s.tags.any (fun r => r.2 = name) = true :=
    List.any_eq_true.mpr ⟨(id, name), h, by simp⟩
  simp [create_tag, hany]

/-- C4 witness: on a store whose tag table holds `(1, "t")`, creating `"t"`
again fails with `TagAlreadyExists "t"` and returns the store unchanged. -/
theorem create_tag_duplicate_fails_witness :
    ((1, "t") ∈ exStoreTag.tags) ∧
      create_tag exStoreTag "t" = (.error (.TagAlreadyExists "t"), exStoreTag) :=
  ⟨by decide, create_tag_duplicate_fails exStoreTag "t" 1 (by decide)⟩

/-- C1 counterexample: on the empty store, attaching tag `"t"` (which does
not exist) to the resolvable in-root path `"p"` fails with
`TagDoesNotExist "t"` — yet a Medium row `(1, "a")` HAS been created, because
`add_tag` runs the medium upsert before the tag lookup. The media table is
not left unchanged, refuting the claim as stated. -/
theorem add_tag_unknown_tag_creates_medium_cex :
    (add_tag exFs exRoot emptyStore "p" "t").1 = .error (.TagDoesNotExist "t") ∧
      (add_tag exFs exRoot emptyStore "p" "t").2.media = [(1, ['a'])] ∧
      emptyStore.media = [] := by
  decide

/-- C1 amended: attaching an unknown tag name to a resolvable in-root path
fails with `TagDoesNotExist` and leaves the tag and association tables
unchanged, but the media table is left as the medium upsert left it: it is
unchanged only when the path was already tracked — for an untracked path a
Medium row is created as a side effect of the failed attach. -/
theorem add_tag_unknown_tag_after_medium_upsert (fs : Fs) (root : AbsPath)
    (s : Store) (p : String) (tagName : String) (pathStr : List Char)
    (hres : resolve_path_to_db_string fs root p = .ok pathStr)
    (htag : findTagId s tagName = none) :
    (add_tag fs root s p tagName).1 = .error (.TagDoesNotExist tagName) ∧
      (add_tag fs root s p tagName).2.tags = s.tags ∧
      (add_tag fs root s p tagName).2.mediaTags = s.mediaTags ∧
      (add_tag fs root s p tagName).2 = (get_medium_id_or_insert s pathStr).2 ∧
      ((s.media.find? (fun r => r.2 = pathStr)).isSome →
        (add_tag fs root s p tagName).2 = s) := by
  have htag1 : findTagId (get_medium_id_or_insert s pathStr).2 tagName = none := by
    rw [findTagId_tags_eq (gmi_tags s pathStr)]
    exact htag
  have key : add_tag fs root s p tagName =
      (.error (.TagDoesNotExist tagName), (get_medium_id_or_insert s pathStr).2) := by
    simp only [add_tag, hres, htag1]
  rw [key]
  refine ⟨rfl, gmi_tags s pathStr, gmi_mediaTags s pathStr, rfl, ?_⟩
  intro hsome
  obtain ⟨r, hr⟩ := Option.isSome_iff_exists.mp hsome
  simpa using congrArg Prod.snd (gmi_of_find s pathStr r hr)

/-- C1 amended witness: on a store that already tracks the path (`exStoreMT`
tracks `(1, "a")` but its only tag is `"t"`), attaching the unknown tag
`"u"` fails and the store is unchanged; the theorem's tracked-path conjunct
applies. -/
theorem add_tag_unknown_tag_after_medium_upsert_witness :
    (resolve_path_to_db_string exFs exRoot "p" = .ok ['a']) ∧
      (findTagId exStoreMT "u" = none) ∧
      ((add_tag exFs exRoot exStoreMT "p" "u").1 = .error (.TagDoesNotExist "u") ∧
        (add_tag exFs exRoot exStoreMT "p" "u").2.tags = exStoreMT.tags ∧
        (add_tag exFs exRoot exStoreMT "p" "u").2.mediaTags = exStoreMT.mediaTags ∧
        (add_tag exFs exRoot exStoreMT "p" "u").2 =
          (get_medium_id_or_insert exStoreMT ['a']).2 ∧
        ((exStoreMT.media.find? (fun r => r.2 = ['a'])).isSome →
          (add_tag exFs exRoot exStoreMT "p" "u").2 = exStoreMT)) :=
  ⟨by decide, by decide,
    add_tag_unknown_tag_after_medium_upsert exFs exRoot exStoreMT "p" "u" ['a']
      (by decide) (by decide)⟩

/-- C3 counterexample: on the empty store the pair (path `"p"`, tag `"t"`)
is certainly not associated (the association table is empty), yet
`remove_tag` returns the error `FileDoesNotExist "a"` because no Medium row
exists for the path — refuting "never returns an error". -/
theorem remove_tag_absent_assoc_errors_cex :
    emptyStore.mediaTags = [] ∧
      remove_tag exFs exRoot emptyStore "p" "t" =
        (.error (.FileDoesNotExist ['a']), emptyStore) := by
  decide

/-- C3 amended: when the path's Medium row exists and the tag exists but
the association pair is absent, `remove_tag` succeeds and leaves the whole
store unchanged; when the Medium row or the tag is missing it instead fails
with `FileDoesNotExist` / `TagDoesNotExist` (still without changing state,
as the other error-path theorems show). -/
theorem remove_tag_absent_assoc_noop (fs : Fs) (root : AbsPath) (s : Store)
    (p : String) (tagName : String) (pathStr : List Char) (mediumId tagId : Int)
    (hres : resolve_path_to_db_string fs root p = .ok pathStr)
    (hmed : (s.media.find? (fun r => r.2 = pathStr)).map (·.1) = some mediumId)
    (htag : findTagId s tagName = some tagId)
    (hassoc : (mediumId, tagId) ∉ s.mediaTags) :
    remove_tag fs root s p tagName = (.ok (), s) := by
  have hfilter : s.mediaTags.filter (fun mt => mt ≠ (mediumId, tagId)) = s.mediaTags := by
    refine List.filter_eq_self.mpr (fun mt hmt => ?_)
    simp only [ne_eq, decide_eq_true_eq]
    intro he
    exact hassoc (he ▸ hmt)
  simp only [remove_tag, hres, hmed, htag, hfilter]

/-- C3 amended witness: `exStoreMT` tracks the path as medium 1 and holds
tag `"t"` as tag 1, with no associations; detaching succeeds and returns
the store unchanged. -/
theorem remove_tag_absent_assoc_noop_witness :
    (resolve_path_to_db_string exFs exRoot "p" = .ok ['a']) ∧
      ((exStoreMT.media.find? (fun r => r.2 = ['a'])).map (·.1) = some 1) ∧
      (findTagId exStoreMT "t" = some 1) ∧
      ((1, 1) ∉ exStoreMT.mediaTags) ∧
      remove_tag exFs exRoot exStoreMT "p" "t" = (.ok (), exStoreMT) :=
  ⟨by decide, by decide, by decide, by decide,
    remove_tag_absent_assoc_noop exFs exRoot exStoreMT "p" "t" ['a'] 1 1
      (by decide) (by decide) (by decide) (by decide)⟩

/-- C2: a medium is in the `Search` output iff it is in the snapshot and the
positive condition holds (ALL: every include name among the medium's tag
names, vacuously true on an empty include list; ANY: some include name among
them, or the include list is empty) and no exclude name is among the
medium's tag names. -/
theorem search_match_iff (snapshot : MediaTags) (anyMode : Bool)
    (queries exclude : List String) (m : Medium) :
    m ∈ search snapshot anyMode queries exclude ↔
      m ∈ snapshot.media ∧
        ((if anyMode then
            queries = [] ∨ ∃ q ∈ queries, q ∈ mediumTagNames snapshot.tags m
          else ∀ q ∈ queries, q ∈ mediumTagNames snapshot.tags m) ∧
          ∀ q ∈ exclude, q ∉ mediumTagNames snapshot.tags m) := by
  unfold search
  rw [List.mem_filter]
  refine and_congr_right fun _ => ?_
  cases anyMode with
  | false =>
    simp [searchFilter, List.all_eq_true, List.any_eq_true,
      has_tag_iff_mem_names, has_tag_eq_false_iff]
  | true =>
    cases queries with
    | nil =>
      simp [searchFilter, List.any_eq_true, has_tag_iff_mem_names,
        has_tag_eq_false_iff]
    | cons q0 qs =>
      simp [searchFilter, List.any_eq_true, has_tag_iff_mem_names,
        has_tag_eq_false_iff]

/-- C5: with a resolvable in-root path and an existing tag name, the first
attach succeeds, and a second identical attach succeeds and returns exactly
the state the first one produced (tags, media and associations all equal). -/
theorem add_tag_idempotent (fs : Fs) (root : AbsPath) (s : Store) (p : String)
    (tagName : String) (pathStr : List Char) (tagId : Int)
    (hres : resolve_path_to_db_string fs root p = .ok pathStr)
    (htag : findTagId s tagName = some tagId) :
    (add_tag fs root s p tagName).1 = .ok () ∧
      add_tag fs root (add_tag fs root s p tagName).2 p tagName =
        (.ok (), (add_tag fs root s p tagName).2) := by
  have htag1 : findTagId (get_medium_id_or_insert s pathStr).2 tagName = some tagId := by
    rw [findTagId_tags_eq (gmi_tags s pathStr)]
    exact htag
  by_cases hmem :
      ((get_medium_id_or_insert s pathStr).1, tagId) ∈
        (get_medium_id_or_insert s pathStr).2.mediaTags
  · have key1 : add_tag fs root s p tagName =
        (.ok (), (get_medium_id_or_insert s pathStr).2) := by
      simp only [add_tag, hres, htag1, if_pos hmem]
    have hgmi2 : get_medium_id_or_insert (get_medium_id_or_insert s pathStr).2 pathStr =
        ((get_medium_id_or_insert s pathStr).1, (get_medium_id_or_insert s pathStr).2) :=
      gmi_of_find _ _ _ (gmi_find s pathStr)
    have key2 : add_tag fs root (get_medium_id_or_insert s pathStr).2 p tagName =
        (.ok (), (get_medium_id_or_insert s pathStr).2) := by
      simp only [add_tag, hres, hgmi2, htag1, if_pos hmem]
    rw [key1]
    exact ⟨rfl, key2⟩
  · have key1 : add_tag fs root s p tagName =
        (.ok (),
          { (get_medium_id_or_insert s pathStr).2 with
            mediaTags := (get_medium_id_or_insert s pathStr).2.mediaTags ++
              [((get_medium_id_or_insert s pathStr).1, tagId)] }) := by
      simp only [add_tag, hres, htag1, if_neg hmem]
    rw [key1]
    refine ⟨rfl, ?_⟩
    have hs2tags :
        ({ (get_medium_id_or_insert s pathStr).2 with
            mediaTags := (get_medium_id_or_insert s pathStr).2.mediaTags ++
              [((get_medium_id_or_insert s pathStr).1, tagId)] } : Store).tags =
          (get_medium_id_or_insert s pathStr).2.tags := rfl
    have hfind2 :
        ({ (get_medium_id_or_insert s pathStr).2 with
            mediaTags := (get_medium_id_or_insert s pathStr).2.mediaTags ++
              [((get_medium_id_or_insert s pathStr).1, tagId)] } : Store).media.find?
            (fun r => r.2 = pathStr) =
          some ((get_medium_id_or_insert s pathStr).1, pathStr) := gmi_find s pathStr
    have hgmi2 := gmi_of_find _ _ _ hfind2
    have htag2 :
        findTagId
            ({ (get_medium_id_or_insert s pathStr).2 with
              mediaTags := (get_medium_id_or_insert s pathStr).2.mediaTags ++
                [((get_medium_id_or_insert s pathStr).1, tagId)] } : Store) tagName =
          some tagId := by
      rw [findTagId_tags_eq hs2tags]
      exact htag1
    have hmem2 :
        ((get_medium_id_or_insert s pathStr).1, tagId) ∈
          ({ (get_medium_id_or_insert s pathStr).2 with
            mediaTags := (get_medium_id_or_insert s pathStr).2.mediaTags ++
              [((get_medium_id_or_insert s pathStr).1, tagId)] } : Store).mediaTags := by
      simp
    simp only [add_tag, hres, hgmi2, htag2, if_pos hmem2]

/-- C5 witness: on a store holding tag `(1, "t")` and nothing else, the
first attach of (`"p"`, `"t"`) succeeds and the second returns the first's
state unchanged. -/
theorem add_tag_idempotent_witness :
    (resolve_path_to_db_string exFs exRoot "p" = .ok ['a']) ∧
      (findTagId exStoreTag "t" = some 1) ∧
      ((add_tag exFs exRoot exStoreTag "p" "t").1 = .ok () ∧
        add_tag exFs exRoot (add_tag exFs exRoot exStoreTag "p" "t").2 "p" "t" =
          (.ok (), (add_tag exFs exRoot exStoreTag "p" "t").2)) :=
  ⟨by decide, by decide,
    add_tag_idempotent exFs exRoot exStoreTag "p" "t" ['a'] 1 (by decide) (by decide)⟩

/-- C9: starting from any state whose media paths are unique (in particular
the empty store), no sequence of create/attach/detach calls produces two
Medium rows with the same path; and attaching to an already-tracked path
reuses the existing row's id without touching the table. -/
theorem media_paths_unique_invariant (fs : Fs) (root : AbsPath) (ops : List Op)
    (s : Store) (h : mediaPathsUnique s) :
    mediaPathsUnique (runOps fs root ops s) ∧
      ∀ ps r, s.media.find? (fun x => x.2 = ps) = some r →
        get_medium_id_or_insert s ps = (r.1, s) :=
  ⟨runOps_unique fs root ops s h, fun ps r hr => gmi_of_find s ps r hr⟩

/-- C9 witness: running create `"t"`, then attach (`"p"`, `"t"`) twice, on
the empty store keeps the media paths unique. -/
theorem media_paths_unique_invariant_witness :
    mediaPathsUnique emptyStore ∧
      (mediaPathsUnique
          (runOps exFs exRoot [Op.create "t", Op.attach "p" "t", Op.attach "p" "t"]
            emptyStore) ∧
        ∀ ps r, emptyStore.media.find? (fun x => x.2 = ps) = some r →
          get_medium_id_or_insert emptyStore ps = (r.1, emptyStore)) :=
  ⟨by simp [mediaPathsUnique, emptyStore],
    media_paths_unique_invariant exFs exRoot
      [Op.create "t", Op.attach "p" "t", Op.attach "p" "t"] emptyStore
      (by simp [mediaPathsUnique, emptyStore])⟩

/-- C10: the snapshot lists every media row — each row of the media table
appears, id and joined path alike, in the snapshot's media in order; a row
none of whose associations remain appears with an empty tag-id list; and a
query with empty include and exclude sets returns the snapshot's media
unfiltered (in either match mode). -/
theorem snapshot_includes_untagged_media (root : AbsPath) (s : Store)
    (anyMode : Bool) :
    ((load_media_tag root s).media.map (fun m => (m.id, m.path)) =
        s.media.map (fun r => (r.1, joinRoot root r.2))) ∧
      (∀ r ∈ s.media, (∀ mt ∈ s.mediaTags, mt.1 ≠ r.1) →
        (⟨r.1, joinRoot root r.2, []⟩ : Medium) ∈ (load_media_tag root s).media) ∧
      search (load_media_tag root s) anyMode [] [] = (load_media_tag root s).media := by
  refine ⟨?_, ?_, ?_⟩
  · simp [load_media_tag, List.map_map]
  · intro r hr hno
    have hfilter : s.mediaTags.filter (fun mt => mt.1 = r.1) = [] := by
      refine List.filter_eq_nil_iff.mpr fun mt hmt => ?_
      simpa using hno mt hmt
    have : (⟨r.1, joinRoot root r.2, []⟩ : Medium) =
        ⟨r.1, joinRoot root r.2,
          (s.mediaTags.filter (fun mt => mt.1 = r.1)).filterMap
            (fun mt => if s.tags.any (fun t => t.1 = mt.2) then some mt.2 else none)⟩ := by
      rw [hfilter]
      rfl
    rw [this]
    exact List.mem_map_of_mem _ hr
  · refine List.filter_eq_self.mpr fun m _ => ?_
    cases anyMode <;> simp [searchFilter]

/-- C6: path round-trip. If a path canonicalizes to `absPath` (whose
components are canonical: nonempty, separator-free, not `.`) and
`resolve_path_to_db_string` stores the relative string `dbStr` for it, then
joining `dbStr` back onto the root — exactly what `load_media_tag` does —
reproduces `absPath`, the canonical target of the original path. -/
theorem resolve_roundtrip (fs : Fs) (root : AbsPath) (p : String)
    (absPath : AbsPath) (dbStr : List Char)
    (hvalid : ∀ c ∈ absPath, validComponent c)
    (hfs : fs p = some absPath)
    (hres : resolve_path_to_db_string fs root p = .ok dbStr) :
    joinRoot root dbStr = absPath := by
  cases hrel : relativeTo root absPath with
  | none => simp [resolve_path_to_db_string, hfs, hrel] at hres
  | some rel =>
    simp only [resolve_path_to_db_string, hfs, hrel, Except.ok.injEq] at hres
    have habs : absPath = root ++ rel := relativeTo_some root absPath rel hrel
    have hrelvalid : ∀ c ∈ rel, validComponent c := fun c hc =>
      hvalid c (habs ▸ List.mem_append_right root hc)
    rw [← hres]
    unfold joinRoot
    rw [parseRelString_encode rel hrelvalid, habs]

/-- C6 witness: `"p"` canonicalizes to `/r/a`; its stored relative string
`"a"` joined back onto the root `/r` reproduces `/r/a`. -/
theorem resolve_roundtrip_witness :
    (∀ c ∈ [['r'], ['a']], validComponent c) ∧
      (exFs "p" = some [['r'], ['a']]) ∧
      (resolve_path_to_db_string exFs exRoot "p" = .ok ['a']) ∧
      joinRoot exRoot ['a'] = [['r'], ['a']] :=
  ⟨by decide, by decide, by decide,
    resolve_roundtrip exFs exRoot "p" [['r'], ['a']] ['a']
      (by decide) (by decide) (by decide)⟩

/-- C7: for every existing path whose canonical form does not lie under the
root (`strip_prefix` fails), both `add_tag` and `remove_tag` fail with the
strip-prefix error and return the store unchanged, for every tag name. -/
theorem outside_root_rejected (fs : Fs) (root : AbsPath) (s : Store)
    (p : String) (tagName : String) (absPath : AbsPath)
    (hfs : fs p = some absPath) (hout : relativeTo root absPath = none) :
    add_tag fs root s p tagName = (.error .StripPrefixError, s) ∧
      remove_tag fs root s p tagName = (.error .StripPrefixError, s) := by
  have hres : resolve_path_to_db_string fs root p = .error .StripPrefixError := by
    simp [resolve_path_to_db_string, hfs, hout]
  constructor
  · unfold add_tag
    rw [hres]
  · unfold remove_tag
    rw [hres]

/-- C7 witness: the path `"q"` canonicalizes to `/z/a`, outside root `/r`;
both operations fail with the strip-prefix error on a store that does hold
the tag `"t"`, leaving it unchanged. -/
theorem outside_root_rejected_witness :
    (exFsOut "q" = some [['z'], ['a']]) ∧
      (relativeTo exRoot [['z'], ['a']] = none) ∧
      (add_tag exFsOut exRoot exStoreTag "q" "t" = (.error .StripPrefixError, exStoreTag) ∧
        remove_tag exFsOut exRoot exStoreTag "q" "t" = (.error .StripPrefixError, exStoreTag)) :=
  ⟨by decide, by decide,
    outside_root_rejected exFsOut exRoot exStoreTag "q" "t" [['z'], ['a']]
      (by decide) (by decide)⟩

/-- C8: a tag id with no entry in the snapshot's tag map never satisfies any
query string: on its own `has_tag` is `false` for every query, and in a
medium's tag list it contributes nothing — the query engine skips it rather
than erroring. -/
theorem dangling_tag_never_matches (tagMap : List (Int × String)) (tagId : Int)
    (rest : List Int) (q : String)
    (h : tagMap.find? (fun r => r.1 = tagId) = none) :
    has_tag tagMap [tagId] q = false ∧
      has_tag tagMap (tagId :: rest) q = has_tag tagMap rest q := by
  constructor
  · simp [has_tag, h]
  · simp [has_tag, List.any_cons, h]

/-- C8 witness: with tag map `[(1, "x")]`, the dangling id `2` matches no
query (`"x"` here) and dropping it from a tag list changes nothing. -/
theorem dangling_tag_never_matches_witness :
    ([((1 : Int), "x")].find? (fun r => r.1 = (2 : Int)) = none) ∧
      (has_tag [((1 : Int), "x")] [2] "x" = false ∧
        has_tag [((1 : Int), "x")] (2 :: [1]) "x" = has_tag [((1 : Int), "x")] [1] "x") :=
  ⟨by decide, dangling_tag_never_matches [((1 : Int), "x")] 2 [1] "x" (by decide)⟩

end MediaTag
